import Mathlib

/-!
Shallow embedding of the comment-report view engine
(src/crates/db_views/src/comment_report_view.rs) and the save-post handler
(src/crates/api/src/post/save.rs).

The relational store is modelled as lists of rows; diesel inner joins on a
key column become `List.find?` lookups (key columns are unique in the store),
left joins become `Option`-valued lookups, SQL `WHERE` clauses become
`List.filter` (conjunctive, applied before `ORDER BY`/`LIMIT`/`OFFSET`
regardless of builder call order, as in SQL), `ORDER BY` becomes a sort, and
`LIMIT`/`OFFSET` become `List.take`/`List.drop`.  Timestamps are `Int`.
-/

namespace Lemmy

/-- Error taxonomy of the external interface (spec section 7): diesel's
`NotFound` for absent rows, `InvalidArgument` for malformed pagination. -/
inductive DbError
  | NotFound
  | InvalidArgument
deriving DecidableEq, Repr

/-- Row of the `comment_report` table. -/
structure CommentReport where
  id : Nat
  creator_id : Nat
  comment_id : Nat
  original_comment_text : String
  reason : String
  resolved : Bool
  resolver_id : Option Nat
  published : Int
  updated : Option Int
deriving DecidableEq, Repr

/-- Row of the `comment` table (the fields the view engine touches). -/
structure Comment where
  id : Nat
  creator_id : Nat
  post_id : Nat
deriving DecidableEq, Repr

/-- Row of the `post` table (the fields the view engine touches). -/
structure Post where
  id : Nat
  creator_id : Nat
  community_id : Nat
deriving DecidableEq, Repr

/-- Row of the `community` table. -/
structure Community where
  id : Nat
deriving DecidableEq, Repr

/-- Row of the `person` table. -/
structure Person where
  id : Nat
  name : String
deriving DecidableEq, Repr

/-- Row of the `local_user` table: the local account carrying the admin flag. -/
structure LocalUser where
  person_id : Nat
  admin : Bool
deriving DecidableEq, Repr

/-- Row of the `community_actions` relationship table, keyed by
(person_id, community_id): moderator membership, ban and follow state. -/
structure CommunityActions where
  community_id : Nat
  person_id : Nat
  became_moderator : Option Int
  received_ban : Option Int
  ban_expires : Option Int
  followed : Option Int
  follow_pending : Bool
deriving DecidableEq, Repr

/-- Row of the `comment_actions` relationship table, keyed by
(person_id, comment_id): the viewer's save and vote state on a comment. -/
structure CommentActions where
  comment_id : Nat
  person_id : Nat
  saved : Option Int
  like_score : Option Int
deriving DecidableEq, Repr

/-- Row of the `person_actions` relationship table, keyed by
(person_id, target_id): the viewer's block state on another person. -/
structure PersonActions where
  person_id : Nat
  target_id : Nat
  blocked : Option Int
deriving DecidableEq, Repr

/-- Row of the `comment_aggregates` table. -/
structure CommentAggregates where
  comment_id : Nat
  score : Int
deriving DecidableEq, Repr

/-- The relational store: one list of rows per table. -/
structure DB where
  comment_report : List CommentReport
  comment : List Comment
  post : List Post
  community : List Community
  person : List Person
  local_user : List LocalUser
  community_actions : List CommunityActions
  comment_actions : List CommentActions
  person_actions : List PersonActions
  comment_aggregates : List CommentAggregates
deriving Repr

/-- Tri-state subscription status. -/
inductive SubscribedType
  | Subscribed
  | Pending
  | NotSubscribed
deriving DecidableEq, Repr

/-- Modelled from the spec: `CommunityFollower::select_subscribed_type`
(lemmy_db_schema, not under src/).  Spec section 4.1: subscription resolves to
a tri-state (subscribed / pending / not-subscribed) from the viewer's follow
relation to the community. -/
def select_subscribed_type (a : Option CommunityActions) : SubscribedType :=
  match a with
  | none => SubscribedType.NotSubscribed
  | some a =>
    match a.followed with
    | none => SubscribedType.NotSubscribed
    | some _ => if a.follow_pending then SubscribedType.Pending else SubscribedType.Subscribed

/-- The denormalized view row produced by the select list of `all_joins`. -/
structure CommentReportView where
  comment_report : CommentReport
  comment : Comment
  post : Post
  community : Community
  creator : Person
  comment_creator : Person
  counts : CommentAggregates
  creator_banned_from_community : Bool
  creator_is_moderator : Bool
  creator_is_admin : Bool
  creator_blocked : Bool
  subscribed : SubscribedType
  saved : Bool
  my_vote : Option Int
  resolver : Option Person
deriving DecidableEq, Repr

/-- The viewer handed to list mode. -/
structure LocalUserView where
  local_user : LocalUser
  person : Person
deriving DecidableEq, Repr

/-- Query options of `CommentReportQuery`. -/
structure CommentReportQuery where
  community_id : Option Nat
  comment_id : Option Nat
  page : Option Int
  limit : Option Int
  unresolved_only : Bool
deriving DecidableEq, Repr

def findComment (db : DB) (id : Nat) : Option Comment :=
  db.comment.find? (fun c => c.id == id)

def findPost (db : DB) (id : Nat) : Option Post :=
  db.post.find? (fun p => p.id == id)

def findCommunity (db : DB) (id : Nat) : Option Community :=
  db.community.find? (fun k => k.id == id)

def findPerson (db : DB) (id : Nat) : Option Person :=
  db.person.find? (fun q => q.id == id)

/-- The viewer-scoped left join on `community_actions` filtered to
`became_moderator IS NOT NULL`: does a moderator-relation row exist for this
person and community? -/
def viewer_is_moderator (db : DB) (person_id : Nat) (community_id : Nat) : Bool :=
  ((db.community_actions.find?
      (fun a => a.person_id == person_id && a.community_id == community_id)).bind
    (fun a => a.became_moderator)).isSome

/-- `all_joins` applied to one `comment_report` row: the inner joins to
comment, post, community, reporting person, comment creator and aggregates
(failure of any drops the row, as an SQL inner join does), the left joins to
the viewer-scoped relationship tables, the creator's community actions, the
creator's admin-flagged local user and the resolver person, and the derived
select columns. -/
def viewRow (db : DB) (now : Int) (my_person_id : Nat) (r : CommentReport) :
    Option CommentReportView :=
  match findComment db r.comment_id with
  | none => none
  | some c =>
  match findPost db c.post_id with
  | none => none
  | some p =>
  match findCommunity db p.community_id with
  | none => none
  | some community =>
  match findPerson db r.creator_id with
  | none => none
  | some creator =>
  match findPerson db c.creator_id with
  | none => none
  | some comment_creator =>
  match db.comment_aggregates.find? (fun a => a.comment_id == r.comment_id) with
  | none => none
  | some counts =>
  let my_comment_actions :=
    db.comment_actions.find?
      (fun a => a.person_id == my_person_id && a.comment_id == r.comment_id)
  let creator_community_actions :=
    db.community_actions.find?
      (fun a => a.person_id == c.creator_id && a.community_id == p.community_id)
  let creator_local_user :=
    db.local_user.find? (fun u => u.person_id == c.creator_id && u.admin)
  let my_person_actions :=
    db.person_actions.find?
      (fun a => a.person_id == my_person_id && a.target_id == c.creator_id)
  let my_community_actions :=
    db.community_actions.find?
      (fun a => a.person_id == my_person_id && a.community_id == p.community_id)
  some
    { comment_report := r
      comment := c
      post := p
      community := community
      creator := creator
      comment_creator := comment_creator
      counts := counts
      creator_banned_from_community :=
        match creator_community_actions with
        | none => false
        | some a =>
          a.received_ban.isSome ||
            (match a.ban_expires with
             | some e => decide (now < e)
             | none => false)
      creator_is_moderator := (creator_community_actions.bind (fun a => a.became_moderator)).isSome
      creator_is_admin := creator_local_user.isSome
      creator_blocked := (my_person_actions.bind (fun a => a.blocked)).isSome
      subscribed := select_subscribed_type my_community_actions
      saved := (my_comment_actions.bind (fun a => a.saved)).isSome
      my_vote := my_comment_actions.bind (fun a => a.like_score)
      resolver := r.resolver_id.bind (findPerson db) }

/-- Point lookup (`queries::read` wrapped by `CommentReportView::read`):
primary-key lookup of the report, the shared `all_joins` shape on top, first
row or `NotFound`. -/
def CommentReportView.read (db : DB) (now : Int) (report_id : Nat) (my_person_id : Nat) :
    Except DbError CommentReportView :=
  match (db.comment_report.find? (fun r => r.id == report_id)).bind
      (viewRow db now my_person_id) with
  | some v => Except.ok v
  | none => Except.error DbError.NotFound

/-- Default and maximum page size used when `limit` is unsupplied. -/
def FETCH_LIMIT_MAX : Int := 50

/-- Modelled from the spec: `limit_and_offset` (lemmy_db_schema::utils, not
under src/).  Spec sections 4.2 and 7: offset = (page − 1) × page-size when a
page is supplied, else 0; page-size defaults to a bounded maximum when
unsupplied; an out-of-range page-size fails with `InvalidArgument`; a page
number below 1 is floor-clamped to 1, the one permitted clamp. -/
def limit_and_offset (page : Option Int) (limit : Option Int) :
    Except DbError (Int × Int) :=
  let page :=
    match page with
    | some p => max p 1
    | none => 1
  match limit with
  | some l =>
    if 1 ≤ l ∧ l ≤ FETCH_LIMIT_MAX then Except.ok (l, l * (page - 1))
    else Except.error DbError.InvalidArgument
  | none => Except.ok (FETCH_LIMIT_MAX, FETCH_LIMIT_MAX * (page - 1))

/-- Ascending order on `published` (the unresolved-only FIFO ordering). -/
def publishedLE (a b : CommentReportView) : Prop :=
  a.comment_report.published ≤ b.comment_report.published

/-- Descending order on `published` (the default newest-first ordering). -/
def publishedGE (a b : CommentReportView) : Prop :=
  b.comment_report.published ≤ a.comment_report.published

instance : DecidableRel publishedLE :=
  fun _ _ => inferInstanceAs (Decidable (_ ≤ _))

instance : DecidableRel publishedGE :=
  fun _ _ => inferInstanceAs (Decidable (_ ≤ _))

instance : IsTotal CommentReportView publishedLE :=
  ⟨fun _ _ => Int.le_total _ _⟩

instance : IsTrans CommentReportView publishedLE :=
  ⟨fun _ _ _ => Int.le_trans⟩

instance : IsTotal CommentReportView publishedGE :=
  ⟨fun _ _ => Int.le_total _ _⟩

instance : IsTrans CommentReportView publishedGE :=
  ⟨fun _ _ _ h h2 => Int.le_trans h2 h⟩

/-- The `WHERE` clause of list mode: the shared join shape over every report
row, the optional community and comment equality filters, and — for a
non-admin viewer — the filter to rows whose viewer-scoped
`community_actions.became_moderator` is not null. -/
def candidate_rows (db : DB) (now : Int) (options : CommentReportQuery)
    (user : LocalUserView) : List CommentReportView :=
  let rows := db.comment_report.filterMap (viewRow db now user.person.id)
  let rows :=
    match options.community_id with
    | some cid => rows.filter (fun v => v.post.community_id == cid)
    | none => rows
  let rows :=
    match options.comment_id with
    | some cid => rows.filter (fun v => v.comment_report.comment_id == cid)
    | none => rows
  if !user.local_user.admin then
    rows.filter (fun v => viewer_is_moderator db user.person.id v.post.community_id)
  else rows

/-- The resolved filter and ordering of list mode: unresolved-only filters to
`resolved = false` and orders ascending by `published` (FIFO), otherwise no
resolved filter and descending by `published`. -/
def ordered_rows (db : DB) (now : Int) (options : CommentReportQuery)
    (user : LocalUserView) : List CommentReportView :=
  if options.unresolved_only then
    List.insertionSort publishedLE
      ((candidate_rows db now options user).filter
        (fun v => v.comment_report.resolved == false))
  else
    List.insertionSort publishedGE (candidate_rows db now options user)

/-- List mode (`queries::list` wrapped by `CommentReportQuery::list`): the
`WHERE` clause, the ordering, then `LIMIT`/`OFFSET` from `limit_and_offset`. -/
def CommentReportQuery.list (options : CommentReportQuery) (db : DB) (now : Int)
    (user : LocalUserView) : Except DbError (List CommentReportView) :=
  match limit_and_offset options.page options.limit with
  | Except.error e => Except.error e
  | Except.ok (limit, offset) =>
    Except.ok (((ordered_rows db now options user).drop offset.toNat).take limit.toNat)

/-- The narrow count pipeline of `get_report_count` over an explicit report
table `rs` (instantiated with `db.comment_report`): inner joins report →
comment → post only, filters `resolved = false` and the optional community
equality. -/
def report_count_rows (db : DB) (rs : List CommentReport) (community_id : Option Nat) :
    List (CommentReport × Post) :=
  let rows := rs.filterMap (fun r =>
    (findComment db r.comment_id).bind (fun c =>
      (findPost db c.post_id).map (fun p => (r, p))))
  let rows := rows.filter (fun rp => rp.1.resolved == false)
  match community_id with
  | some cid => rows.filter (fun rp => rp.2.community_id == cid)
  | none => rows

/-- `CommentReportView::get_report_count`: counts the narrow pipeline, with
the non-admin branch additionally inner-joining the viewer's
moderator-relation rows (the `community_actions` key (person, community) is
unique, so the inner join is a filter). -/
def CommentReportView.get_report_count (db : DB) (my_person_id : Nat) (admin : Bool)
    (community_id : Option Nat) : Int :=
  let rows := report_count_rows db db.comment_report community_id
  if !admin then
    ((rows.filter (fun rp => viewer_is_moderator db my_person_id rp.2.community_id)).length : Int)
  else
    (rows.length : Int)

/-- Modelled from the spec: `CommentReport::resolve` (lemmy_db_schema's
`Reportable` impl, not under src/).  Spec section 4.4: sets `resolved = true`,
`resolver_id = actor_id`, bumps `updated` to the current time; re-resolution
overwrites resolver and time (last-resolver-wins); fails with `NotFound` when
the report id does not exist. -/
def resolve (db : DB) (now : Int) (report_id : Nat) (actor_id : Nat) :
    Except DbError DB :=
  if db.comment_report.any (fun r => r.id == report_id) then
    Except.ok
      { db with
        comment_report := db.comment_report.map (fun r =>
          if r.id == report_id then
            { r with resolved := true, resolver_id := some actor_id, updated := some now }
          else r) }
  else Except.error DbError.NotFound

/-- Referential integrity of one report row: every inner join of `all_joins`
finds its row (spec section 3 invariant: a report always references exactly
one existing target entity and one existing community). -/
def reportJoinsOk (db : DB) (r : CommentReport) : Bool :=
  match findComment db r.comment_id with
  | none => false
  | some c =>
    match findPost db c.post_id with
    | none => false
    | some p =>
      (findCommunity db p.community_id).isSome &&
        ((findPerson db r.creator_id).isSome &&
          ((findPerson db c.creator_id).isSome &&
            (db.comment_aggregates.find? (fun a => a.comment_id == r.comment_id)).isSome))

/-- The per-report predicate that `get_report_count` counts: unresolved, the
narrow report → comment → post join succeeds, the optional community filter
matches, and the viewer is an admin or moderates the report's community. -/
def count_pred (db : DB) (my_person_id : Nat) (admin : Bool) (community_id : Option Nat)
    (r : CommentReport) : Bool :=
  (!r.resolved) &&
    (match (findComment db r.comment_id).bind (fun c => findPost db c.post_id) with
     | none => false
     | some p =>
       (match community_id with
        | some cid => p.community_id == cid
        | none => true) &&
         (admin || viewer_is_moderator db my_person_id p.community_id))

/-- The list-mode `WHERE` clause without the non-admin moderator restriction:
what an admin viewer's query filters to. -/
def unrestricted_rows (db : DB) (now : Int) (options : CommentReportQuery)
    (user : LocalUserView) : List CommentReportView :=
  let rows := db.comment_report.filterMap (viewRow db now user.person.id)
  let rows :=
    match options.community_id with
    | some cid => rows.filter (fun v => v.post.community_id == cid)
    | none => rows
  match options.comment_id with
  | some cid => rows.filter (fun v => v.comment_report.comment_id == cid)
  | none => rows

/-- List mode as an admin viewer experiences it: the unrestricted `WHERE`
clause, the same ordering and pagination, no moderator-relation filter. -/
def CommentReportQuery.list_all (options : CommentReportQuery) (db : DB) (now : Int)
    (user : LocalUserView) : Except DbError (List CommentReportView) :=
  let rows :=
    if options.unresolved_only then
      List.insertionSort publishedLE
        ((unrestricted_rows db now options user).filter
          (fun v => v.comment_report.resolved == false))
    else
      List.insertionSort publishedGE (unrestricted_rows db now options user)
  match limit_and_offset options.page options.limit with
  | Except.error e => Except.error e
  | Except.ok (limit, offset) =>
    Except.ok ((rows.drop offset.toNat).take limit.toNat)

/-- Request body of the save-post endpoint (`SavePost`). -/
structure SavePost where
  post_id : Nat
  save : Bool
deriving DecidableEq, Repr

/-- The observable writes and reads of the save-post handler, in execution
order. -/
inductive SaveAction
  | saveAct (post_id person_id : Nat)
  | unsaveAct (post_id person_id : Nat)
  | readView (post_id person_id : Nat)
  | markAsRead (post_id person_id : Nat)
deriving DecidableEq, Repr

/-- The store the save-post handler touches: post rows and the per-person
saved and read relationship tables. -/
structure PostDB where
  posts : List Nat
  post_saved : List (Nat × Nat)
  post_read : List (Nat × Nat)
deriving DecidableEq, Repr

/-- The view row the save-post handler re-reads. -/
structure PostView where
  post_id : Nat
deriving DecidableEq, Repr

/-- Modelled from the spec: `PostSaved::save` (lemmy_db_schema, not under
src/), a single-write upsert of the (post, person) saved relation. -/
def PostSaved.save (db : PostDB) (post_id person_id : Nat) : PostDB :=
  if (post_id, person_id) ∈ db.post_saved then db
  else { db with post_saved := (post_id, person_id) :: db.post_saved }

/-- Modelled from the spec: `PostSaved::unsave` (lemmy_db_schema, not under
src/), a single-write delete of the (post, person) saved relation. -/
def PostSaved.unsave (db : PostDB) (post_id person_id : Nat) : PostDB :=
  { db with post_saved := db.post_saved.filter (fun x => x ≠ (post_id, person_id)) }

/-- Modelled from the spec: `PostRead::mark_as_read` (lemmy_db_schema, not
under src/), a single-write upsert of the (post, person) read relation. -/
def PostRead.mark_as_read (db : PostDB) (post_id person_id : Nat) : PostDB :=
  if (post_id, person_id) ∈ db.post_read then db
  else { db with post_read := (post_id, person_id) :: db.post_read }

/-- Modelled from the spec: `PostView::read` (lemmy_db_views, not under
src/), a point lookup of the post view, `NotFound` when the post is absent. -/
def PostView.read (db : PostDB) (post_id : Nat) : Except DbError PostView :=
  if post_id ∈ db.posts then Except.ok { post_id := post_id }
  else Except.error DbError.NotFound

/-- The `save_post` handler (src/crates/api/src/post/save.rs): save or unsave
according to `data.save`, re-read the post view, then mark the post read.
Returns the executed actions in order alongside the handler's result. -/
def save_post (db : PostDB) (data : SavePost) (person_id : Nat) :
    List SaveAction × Except DbError (PostDB × PostView) :=
  let step1 :=
    if data.save then
      (SaveAction.saveAct data.post_id person_id, PostSaved.save db data.post_id person_id)
    else
      (SaveAction.unsaveAct data.post_id person_id, PostSaved.unsave db data.post_id person_id)
  match PostView.read step1.2 data.post_id with
  | Except.error e =>
    ([step1.1, SaveAction.readView data.post_id person_id], Except.error e)
  | Except.ok pv =>
    ([step1.1, SaveAction.readView data.post_id person_id,
      SaveAction.markAsRead data.post_id person_id],
     Except.ok (PostRead.mark_as_read step1.2 data.post_id person_id, pv))

/-- Sara's report against comment 1 in the `test_crud` fixture. -/
def sampleReport1 : CommentReport :=
  { id := 1, creator_id := 2, comment_id := 1,
    original_comment_text := "this was it at time of creation",
    reason := "from sara", resolved := false, resolver_id := none,
    published := 10, updated := none }

/-- Jessica's report against comment 1 in the `test_crud` fixture. -/
def sampleReport2 : CommentReport :=
  { id := 2, creator_id := 3, comment_id := 1,
    original_comment_text := "this was it at time of creation",
    reason := "from jessica", resolved := false, resolver_id := none,
    published := 20, updated := none }

/-- A concrete store mirroring the `test_crud` fixture: timmy (person 1)
moderates community 1 and authored post 1 and comment 1; sara (person 2) and
jessica (person 3) each filed one report against comment 1. -/
def sampleDB : DB :=
  { comment_report := [sampleReport1, sampleReport2]
    comment := [ { id := 1, creator_id := 1, post_id := 1 } ]
    post := [ { id := 1, creator_id := 1, community_id := 1 } ]
    community := [ { id := 1 } ]
    person :=
      [ { id := 1, name := "timmy_crv" }
      , { id := 2, name := "sara_crv" }
      , { id := 3, name := "jessica_crv" } ]
    local_user := [ { person_id := 1, admin := false } ]
    community_actions :=
      [ { community_id := 1, person_id := 1, became_moderator := some 5,
          received_ban := none, ban_expires := none, followed := none,
          follow_pending := false } ]
    comment_actions := []
    person_actions := []
    comment_aggregates := [ { comment_id := 1, score := 0 } ] }

/-- The `test_crud` viewer: timmy, a non-admin moderator of community 1. -/
def timmyView : LocalUserView :=
  { local_user := { person_id := 1, admin := false }
    person := { id := 1, name := "timmy_crv" } }

/-- A concrete post store: one post (id 7), nothing saved or read yet. -/
def samplePostDB : PostDB :=
  { posts := [7], post_saved := [], post_read := [] }

/-- The default query options (`CommentReportQuery::default`). -/
def defaultQuery : CommentReportQuery :=
  { community_id := none, comment_id := none, page := none, limit := none,
    unresolved_only := false }

/-- A store with no rows at all. -/
def emptyDB : DB :=
  { comment_report := [], comment := [], post := [], community := [], person := [],
    local_user := [], community_actions := [], comment_actions := [], person_actions := [],
    comment_aggregates := [] }

/-- An admin viewer (person 4) with no moderator relation anywhere. -/
def adminView : LocalUserView :=
  { local_user := { person_id := 4, admin := true }
    person := { id := 4, name := "admin_crv" } }

/-- The sample store after jessica's report was resolved by timmy: one
resolved and one unresolved report against comment 1. -/
def resolvedDB : DB :=
  { sampleDB with
    comment_report :=
      [ sampleReport1,
        { sampleReport2 with resolved := true, resolver_id := some 1, updated := some 100 } ] }

/-! ### Helper lemmas -/

lemma viewRow_inv (db : DB) (now : Int) (pid : Nat) (r : CommentReport)
    (v : CommentReportView) (h : viewRow db now pid r = some v) :
    v.comment_report = r ∧
    findComment db r.comment_id = some v.comment ∧
    findPost db v.comment.post_id = some v.post ∧
    v.resolver = r.resolver_id.bind (findPerson db) ∧
    v.creator_banned_from_community =
      (match db.community_actions.find?
          (fun a => a.person_id == v.comment.creator_id &&
            a.community_id == v.post.community_id) with
       | none => false
       | some a =>
         a.received_ban.isSome ||
           (match a.ban_expires with
            | some e => decide (now < e)
            | none => false)) := by
  simp only [viewRow] at h
  cases hc : findComment db r.comment_id with
  | none => simp [hc] at h
  | some c =>
    simp only [hc] at h
    cases hp : findPost db c.post_id with
    | none => simp [hp] at h
    | some p =>
      simp only [hp] at h
      cases hk : findCommunity db p.community_id with
      | none => simp [hk] at h
      | some k =>
        simp only [hk] at h
        cases hcr : findPerson db r.creator_id with
        | none => simp [hcr] at h
        | some cr =>
          simp only [hcr] at h
          cases hcc : findPerson db c.creator_id with
          | none => simp [hcc] at h
          | some cc =>
            simp only [hcc] at h
            cases hag : db.comment_aggregates.find? (fun a => a.comment_id == r.comment_id) with
            | none => simp [hag] at h
            | some ag =>
              simp only [hag, Option.some.injEq] at h
              subst h
              exact ⟨rfl, rfl, hp, rfl, rfl⟩

lemma viewRow_isSome (db : DB) (now : Int) (pid : Nat) (r : CommentReport)
    (h : reportJoinsOk db r = true) : ∃ v, viewRow db now pid r = some v := by
  unfold reportJoinsOk at h
  cases hc : findComment db r.comment_id with
  | none => simp [hc] at h
  | some c =>
    simp only [hc] at h
    cases hp : findPost db c.post_id with
    | none => simp [hp] at h
    | some p =>
      simp only [hp, Bool.and_eq_true, Option.isSome_iff_exists] at h
      obtain ⟨⟨k, hk⟩, ⟨cr, hcr⟩, ⟨cc, hcc⟩, ⟨ag, hag⟩⟩ := h
      have hs : (viewRow db now pid r).isSome := by
        simp [viewRow, hc, hp, hk, hcr, hcc, hag]
      exact Option.isSome_iff_exists.mp hs

lemma find?_id_of_nodup (l : List CommentReport) (r : CommentReport)
    (hn : (l.map (fun x => x.id)).Nodup) (hm : r ∈ l) :
    l.find? (fun x => x.id == r.id) = some r := by
  induction l with
  | nil => cases hm
  | cons a t ih =>
    have hn2 : (∀ x ∈ t, ¬x.id = a.id) ∧ (t.map (fun x => x.id)).Nodup := by
      simpa using hn
    rcases List.mem_cons.mp hm with h | h
    · subst h
      simp [List.find?_cons]
    · have hne : (a.id == r.id) = false := by
        simp only [beq_eq_false_iff_ne, ne_eq]
        intro he
        exact hn2.1 r h he.symm
      simp only [List.find?_cons, hne]
      exact ih hn2.2 h

lemma resolve_ok (db : DB) (t : Int) (rid a : Nat)
    (hex : ∃ r ∈ db.comment_report, r.id = rid) :
    ∃ db1, resolve db t rid a = Except.ok db1 ∧
      (∃ r ∈ db1.comment_report, r.id = rid) ∧
      (∀ r ∈ db1.comment_report, r.id = rid →
        r.resolved = true ∧ r.resolver_id = some a ∧ r.updated = some t) := by
  obtain ⟨r, hr, hid⟩ := hex
  have hany : db.comment_report.any (fun x => x.id == rid) = true :=
    List.any_eq_true.mpr ⟨r, hr, by simp [hid]⟩
  refine ⟨_, by rw [resolve, if_pos hany], ?_, ?_⟩
  · refine ⟨{ r with resolved := true, resolver_id := some a, updated := some t }, ?_, hid⟩
    exact List.mem_map.mpr ⟨r, hr, by simp [hid]⟩
  · intro x hx hxid
    obtain ⟨y, hy, hyx⟩ := List.mem_map.mp hx
    by_cases hyid : y.id = rid
    · rw [← hyx]
      simp [hyid]
    · rw [← hyx] at hxid
      simp [hyid] at hxid

lemma mark_as_read_mem (db : PostDB) (post_id person_id : Nat) :
    (post_id, person_id) ∈ (PostRead.mark_as_read db post_id person_id).post_read := by
  unfold PostRead.mark_as_read
  by_cases h : (post_id, person_id) ∈ db.post_read <;> simp [h]

lemma candidate_rows_length_le (db : DB) (now : Int) (options : CommentReportQuery)
    (user : LocalUserView) :
    (candidate_rows db now options user).length ≤ db.comment_report.length := by
  unfold candidate_rows
  have h0 : (db.comment_report.filterMap (viewRow db now user.person.id)).length ≤
      db.comment_report.length := List.length_filterMap_le _ _
  cases options.community_id <;> cases options.comment_id <;>
    cases hadm : user.local_user.admin <;>
    simp only [hadm, Bool.not_false, Bool.not_true, if_true, if_false, Bool.false_eq_true,
      Bool.true_eq_false] <;>
    first
    | exact h0
    | exact le_trans (List.length_filter_le _ _) h0
    | exact le_trans (List.length_filter_le _ _) (le_trans (List.length_filter_le _ _) h0)
    | exact le_trans (List.length_filter_le _ _)
        (le_trans (List.length_filter_le _ _) (le_trans (List.length_filter_le _ _) h0))

lemma ordered_rows_length_le (db : DB) (now : Int) (options : CommentReportQuery)
    (user : LocalUserView) :
    (ordered_rows db now options user).length ≤ db.comment_report.length := by
  unfold ordered_rows
  cases hu : options.unresolved_only <;>
    simp only [hu, if_true, if_false, Bool.false_eq_true, List.length_insertionSort]
  · exact candidate_rows_length_le db now options user
  · exact le_trans (List.length_filter_le _ _) (candidate_rows_length_le db now options user)

lemma list_ok_res (options : CommentReportQuery) (db : DB) (now : Int) (user : LocalUserView)
    (res : List CommentReportView) (h : options.list db now user = Except.ok res) :
    ∃ limit off, limit_and_offset options.page options.limit = Except.ok (limit, off) ∧
      res = ((ordered_rows db now options user).drop off.toNat).take limit.toNat := by
  unfold CommentReportQuery.list at h
  cases hl : limit_and_offset options.page options.limit with
  | error e => rw [hl] at h; cases h
  | ok pr =>
    obtain ⟨limit, off⟩ := pr
    rw [hl] at h
    cases h
    exact ⟨limit, off, rfl, rfl⟩

/-! ### Claims -/

/-- C3: on an existing report, `resolve(report_id, actor_id)` sets
`resolved = true`, `resolver_id` to the actor and `updated` to the time of
the call; re-resolving an already-resolved report overwrites resolver and
time with the newest actor and time (last-resolver-wins); `resolve` on a
nonexistent report id fails with NotFound. -/
theorem resolve_transition_spec (db : DB) (t1 t2 : Int) (rid a1 a2 : Nat) :
    ((∃ r ∈ db.comment_report, r.id = rid) →
      ∃ db1 db2,
        resolve db t1 rid a1 = Except.ok db1 ∧
        (∀ r ∈ db1.comment_report, r.id = rid →
          r.resolved = true ∧ r.resolver_id = some a1 ∧ r.updated = some t1) ∧
        resolve db1 t2 rid a2 = Except.ok db2 ∧
        (∀ r ∈ db2.comment_report, r.id = rid →
          r.resolved = true ∧ r.resolver_id = some a2 ∧ r.updated = some t2)) ∧
    ((∀ r ∈ db.comment_report, r.id ≠ rid) →
      resolve db t1 rid a1 = Except.error DbError.NotFound) := by
  constructor
  · intro hex
    obtain ⟨db1, h1, hex1, hall1⟩ := resolve_ok db t1 rid a1 hex
    obtain ⟨db2, h2, _, hall2⟩ := resolve_ok db1 t2 rid a2 hex1
    exact ⟨db1, db2, h1, hall1, h2, hall2⟩
  · intro hnone
    have hany : db.comment_report.any (fun x => x.id == rid) = false := by
      rw [List.any_eq_false]
      intro x hx
      simpa using hnone x hx
    simp [resolve, hany]

/-- Witness for C3 on the concrete store: resolving report 1 twice records
the latest actor and time, and resolving the absent id 9 is NotFound. -/
theorem resolve_transition_spec_witness :
    (∃ db1 db2,
        resolve sampleDB 100 1 1 = Except.ok db1 ∧
        (∀ r ∈ db1.comment_report, r.id = 1 →
          r.resolved = true ∧ r.resolver_id = some 1 ∧ r.updated = some 100) ∧
        resolve db1 200 1 3 = Except.ok db2 ∧
        (∀ r ∈ db2.comment_report, r.id = 1 →
          r.resolved = true ∧ r.resolver_id = some 3 ∧ r.updated = some 200)) ∧
    resolve sampleDB 100 9 1 = Except.error DbError.NotFound :=
  ⟨(resolve_transition_spec sampleDB 100 200 1 1 3).1 (by decide),
   (resolve_transition_spec sampleDB 100 200 9 1 3).2 (by decide)⟩

/-- C9: every successful execution of `save_post` leaves the post marked read
for the caller, in both the save and unsave branches, and the mark-as-read
write is the last action, after the save/unsave write and after the post view
re-read. -/
theorem save_post_marks_read (db : PostDB) (data : SavePost) (pid : Nat)
    (db2 : PostDB) (pv : PostView)
    (h : (save_post db data pid).2 = Except.ok (db2, pv)) :
    (data.post_id, pid) ∈ db2.post_read ∧
    (save_post db data pid).1 =
      [ if data.save then SaveAction.saveAct data.post_id pid
        else SaveAction.unsaveAct data.post_id pid,
        SaveAction.readView data.post_id pid,
        SaveAction.markAsRead data.post_id pid ] := by
  cases hs : data.save with
  | true =>
    simp only [save_post, hs, if_true, PostView.read] at h ⊢
    by_cases hc : data.post_id ∈ (PostSaved.save db data.post_id pid).posts
    · simp only [hc, if_true, Except.ok.injEq, Prod.mk.injEq] at h ⊢
      obtain ⟨hdb, -⟩ := h
      exact ⟨hdb ▸ mark_as_read_mem _ _ _, trivial⟩
    · simp [hc] at h
  | false =>
    simp only [save_post, hs, Bool.false_eq_true, if_false, PostView.read] at h ⊢
    by_cases hc : data.post_id ∈ (PostSaved.unsave db data.post_id pid).posts
    · simp only [hc, if_true, Except.ok.injEq, Prod.mk.injEq] at h ⊢
      obtain ⟨hdb, -⟩ := h
      exact ⟨hdb ▸ mark_as_read_mem _ _ _, trivial⟩
    · simp [hc] at h

/-- Witness for C9 on the concrete post store, exercising both the save and
the unsave branch. -/
theorem save_post_marks_read_witness :
    ((7, 4) ∈ (PostRead.mark_as_read (PostSaved.save samplePostDB 7 4) 7 4).post_read ∧
      (save_post samplePostDB { post_id := 7, save := true } 4).1 =
        [SaveAction.saveAct 7 4, SaveAction.readView 7 4, SaveAction.markAsRead 7 4]) ∧
    ((7, 4) ∈ (PostRead.mark_as_read (PostSaved.unsave samplePostDB 7 4) 7 4).post_read ∧
      (save_post samplePostDB { post_id := 7, save := false } 4).1 =
        [SaveAction.unsaveAct 7 4, SaveAction.readView 7 4, SaveAction.markAsRead 7 4]) := by
  constructor
  · have := save_post_marks_read samplePostDB { post_id := 7, save := true } 4
      (PostRead.mark_as_read (PostSaved.save samplePostDB 7 4) 7 4) { post_id := 7 } rfl
    simpa using this
  · have := save_post_marks_read samplePostDB { post_id := 7, save := false } 4
      (PostRead.mark_as_read (PostSaved.unsave samplePostDB 7 4) 7 4) { post_id := 7 } rfl
    simpa using this

/-- C7: the offset is (page − 1) × page-size when a page is supplied and 0
otherwise; an unsupplied page-size defaults to the bounded maximum; an
out-of-range page-size fails with InvalidArgument rather than being clamped,
page numbers below 1 being floor-clamped to 1 (the one permitted clamp); and
requesting a page beyond the last page returns an empty sequence, not an
error. -/
theorem pagination_spec :
    (∀ (p : Int) (l : Option Int) (limit off : Int), 1 ≤ p →
      limit_and_offset (some p) l = Except.ok (limit, off) → off = limit * (p - 1)) ∧
    (∀ (l : Option Int) (limit off : Int),
      limit_and_offset none l = Except.ok (limit, off) → off = 0) ∧
    (∀ p : Option Int, ∃ off, limit_and_offset p none = Except.ok (FETCH_LIMIT_MAX, off)) ∧
    (∀ (p : Option Int) (l : Int), l < 1 ∨ FETCH_LIMIT_MAX < l →
      limit_and_offset p (some l) = Except.error DbError.InvalidArgument) ∧
    (∀ (db : DB) (now : Int) (options : CommentReportQuery) (user : LocalUserView)
        (limit off : Int),
      limit_and_offset options.page options.limit = Except.ok (limit, off) →
      db.comment_report.length ≤ off.toNat →
      options.list db now user = Except.ok []) := by
  refine ⟨?_, ?_, ?_, ?_, ?_⟩
  · intro p l limit off hp h
    have hmax : max p 1 = p := max_eq_left hp
    cases l with
    | none =>
      simp only [limit_and_offset, hmax, Except.ok.injEq, Prod.mk.injEq] at h
      rw [← h.1, ← h.2]
    | some l =>
      simp only [limit_and_offset, hmax] at h
      split at h
      · simp only [Except.ok.injEq, Prod.mk.injEq] at h
        rw [← h.1, ← h.2]
      · cases h
  · intro l limit off h
    cases l with
    | none =>
      simp only [limit_and_offset, Except.ok.injEq, Prod.mk.injEq] at h
      omega
    | some l =>
      simp only [limit_and_offset] at h
      split at h
      · simp only [Except.ok.injEq, Prod.mk.injEq] at h
        omega
      · cases h
  · intro p
    cases p with
    | none => exact ⟨_, rfl⟩
    | some q => exact ⟨_, rfl⟩
  · intro p l hl
    have hcond : ¬(1 ≤ l ∧ l ≤ FETCH_LIMIT_MAX) := by
      simp only [FETCH_LIMIT_MAX] at hl ⊢
      omega
    simp only [limit_and_offset, if_neg hcond]
  · intro db now options user limit off h hlen
    have h1 : (ordered_rows db now options user).length ≤ off.toNat :=
      le_trans (ordered_rows_length_le db now options user) hlen
    simp only [CommentReportQuery.list, h]
    rw [List.drop_eq_nil_of_le h1, List.take_nil]

/-- Witness for C7: page 3 of size 10 gives offset 20, no page gives offset
0, no limit defaults to the maximum, limit 0 is InvalidArgument, and a page
far past the 2-report sample store yields an empty page. -/
theorem pagination_spec_witness :
    ((20 : Int) = 10 * (3 - 1)) ∧
    ((0 : Int) = 0) ∧
    (∃ off, limit_and_offset (some 4) none = Except.ok (FETCH_LIMIT_MAX, off)) ∧
    (limit_and_offset none (some 0) = Except.error DbError.InvalidArgument) ∧
    (CommentReportQuery.list
        { community_id := none, comment_id := none, page := some 5, limit := some 10,
          unresolved_only := false } sampleDB 100 timmyView = Except.ok []) :=
  ⟨pagination_spec.1 3 (some 10) 10 20 (by decide) rfl,
   pagination_spec.2.1 (some 5) 5 0 rfl,
   pagination_spec.2.2.1 (some 4),
   pagination_spec.2.2.2.1 none 0 (Or.inl (by decide)),
   pagination_spec.2.2.2.2 sampleDB 100 _ timmyView 10 40 rfl (by decide)⟩

/-- C2: when `unresolved_only` is true the list result holds only unresolved
reports and is ascending in `published` (oldest first); when false no
resolved filter is applied — the result is exactly a page of the descending
`published` sort (newest first) of the `WHERE`-clause rows, resolved or not. -/
theorem list_ordering_spec (db : DB) (now : Int) (options : CommentReportQuery)
    (user : LocalUserView) (res : List CommentReportView)
    (h : options.list db now user = Except.ok res) :
    (options.unresolved_only = true →
      (∀ v ∈ res, v.comment_report.resolved = false) ∧
      res.Pairwise (fun a b => a.comment_report.published ≤ b.comment_report.published)) ∧
    (options.unresolved_only = false →
      res.Pairwise (fun a b => b.comment_report.published ≤ a.comment_report.published) ∧
      ∃ limit off, limit_and_offset options.page options.limit = Except.ok (limit, off) ∧
        res = ((List.insertionSort publishedGE
            (candidate_rows db now options user)).drop off.toNat).take limit.toNat) := by
  obtain ⟨limit, off, hlo, hres⟩ := list_ok_res options db now user res h
  have hsub : res.Sublist (ordered_rows db now options user) := by
    rw [hres]
    exact (List.take_sublist _ _).trans (List.drop_sublist _ _)
  constructor
  · intro hu
    constructor
    · intro v hv
      have hv2 : v ∈ ordered_rows db now options user := hsub.subset hv
      unfold ordered_rows at hv2
      rw [hu] at hv2
      simp only [if_true] at hv2
      have hv3 := (List.perm_insertionSort publishedLE _).mem_iff.mp hv2
      simpa using (List.mem_filter.mp hv3).2
    · have hs : (ordered_rows db now options user).Pairwise publishedLE := by
        unfold ordered_rows
        rw [hu]
        simpa using List.sorted_insertionSort publishedLE _
      exact List.Pairwise.imp (fun hab => hab) (List.Pairwise.sublist hsub hs)
  · intro hu
    have hs : (ordered_rows db now options user).Pairwise publishedGE := by
      unfold ordered_rows
      rw [hu]
      simpa using List.sorted_insertionSort publishedGE _
    refine ⟨List.Pairwise.imp (fun hab => hab) (List.Pairwise.sublist hsub hs),
      limit, off, hlo, ?_⟩
    rw [hres]
    unfold ordered_rows
    rw [hu]
    simp only [Bool.false_eq_true, if_false]

/-- Witness for C2: the unresolved-only listing of the sample store is all
unresolved and ascending in `published`; on the store with jessica's report
resolved, the default (not unresolved-only) listing is descending, equals the
unfiltered sorted page, and still contains the resolved report. -/
theorem list_ordering_spec_witness :
    ((∀ v ∈ (CommentReportQuery.list
          { community_id := none, comment_id := none, page := none, limit := none,
            unresolved_only := true } sampleDB 100 timmyView).toOption.getD [],
        v.comment_report.resolved = false) ∧
      ((CommentReportQuery.list
          { community_id := none, comment_id := none, page := none, limit := none,
            unresolved_only := true } sampleDB 100 timmyView).toOption.getD []).Pairwise
        (fun a b => a.comment_report.published ≤ b.comment_report.published)) ∧
    (((CommentReportQuery.list defaultQuery resolvedDB 100 timmyView).toOption.getD
        []).Pairwise
        (fun a b => b.comment_report.published ≤ a.comment_report.published) ∧
      ∃ limit off, limit_and_offset defaultQuery.page defaultQuery.limit =
          Except.ok (limit, off) ∧
        (CommentReportQuery.list defaultQuery resolvedDB 100 timmyView).toOption.getD [] =
          ((List.insertionSort publishedGE
              (candidate_rows resolvedDB 100 defaultQuery timmyView)).drop
            off.toNat).take limit.toNat) ∧
    (∃ v ∈ (CommentReportQuery.list defaultQuery resolvedDB 100 timmyView).toOption.getD [],
      v.comment_report.resolved = true) :=
  ⟨(list_ordering_spec sampleDB 100
      { community_id := none, comment_id := none, page := none, limit := none,
        unresolved_only := true } timmyView _ rfl).1 rfl,
   (list_ordering_spec resolvedDB 100 defaultQuery timmyView _ rfl).2 rfl,
   by decide⟩

/-- C4: `creator_banned_from_community` is true iff the content creator's ban
relation row in the report's community exists and records a ban flag
(`received_ban` set, covering permanent bans) or a ban-expiry timestamp in
the future (an active unexpired temporary ban), and is false when no ban
relation row exists for that creator and community. -/
theorem creator_ban_spec (db : DB) (now : Int) (pid : Nat) (r : CommentReport)
    (v : CommentReportView) (h : viewRow db now pid r = some v) :
    (v.creator_banned_from_community = true ↔
      ∃ a, db.community_actions.find?
          (fun a => a.person_id == v.comment.creator_id &&
            a.community_id == v.post.community_id) = some a ∧
        (a.received_ban.isSome = true ∨ ∃ e, a.ban_expires = some e ∧ now < e)) ∧
    (db.community_actions.find?
        (fun a => a.person_id == v.comment.creator_id &&
          a.community_id == v.post.community_id) = none →
      v.creator_banned_from_community = false) := by
  obtain ⟨-, -, -, -, hban⟩ := viewRow_inv db now pid r v h
  constructor
  · rw [hban]
    cases hf : db.community_actions.find?
        (fun a => a.person_id == v.comment.creator_id &&
          a.community_id == v.post.community_id) with
    | none => simp
    | some a =>
      cases hb : a.ban_expires with
      | none => simp [hb]
      | some e => simp [hb]
  · intro hf
    simp [hban, hf]

/-- Witness for C4: for sara's report in the sample store the creator (timmy)
has a moderator row but no ban, so the derived flag is false and the iff holds
concretely. -/
theorem creator_ban_spec_witness :
    (((viewRow sampleDB 100 1 sampleReport1).get (by decide)).creator_banned_from_community
          = true ↔
      ∃ a, sampleDB.community_actions.find?
          (fun a => a.person_id ==
              ((viewRow sampleDB 100 1 sampleReport1).get (by decide)).comment.creator_id &&
            a.community_id ==
              ((viewRow sampleDB 100 1 sampleReport1).get (by decide)).post.community_id)
          = some a ∧
        (a.received_ban.isSome = true ∨ ∃ e, a.ban_expires = some e ∧ 100 < e)) ∧
    (sampleDB.community_actions.find?
        (fun a => a.person_id ==
            ((viewRow sampleDB 100 1 sampleReport1).get (by decide)).comment.creator_id &&
          a.community_id ==
            ((viewRow sampleDB 100 1 sampleReport1).get (by decide)).post.community_id)
        = none →
      ((viewRow sampleDB 100 1 sampleReport1).get (by decide)).creator_banned_from_community
        = false) :=
  creator_ban_spec sampleDB 100 1 sampleReport1 _ rfl

/-- C10: the resolver field comes from a left join on `resolver_id`: a report
whose resolver_id is unset, or set to a person id with no matching person
row, still yields a complete view row with resolver = None — a missing
resolver person never makes `viewRow` drop the row. -/
theorem resolver_left_join_spec (db : DB) (now : Int) (pid : Nat) (r : CommentReport) :
    (∀ v, viewRow db now pid r = some v →
      v.resolver = r.resolver_id.bind (findPerson db)) ∧
    (reportJoinsOk db r = true → r.resolver_id.bind (findPerson db) = none →
      ∃ v, viewRow db now pid r = some v ∧ v.resolver = none) := by
  constructor
  · intro v h
    exact (viewRow_inv db now pid r v h).2.2.2.1
  · intro hjoins hres
    obtain ⟨v, hv⟩ := viewRow_isSome db now pid r hjoins
    exact ⟨v, hv, by rw [(viewRow_inv db now pid r v hv).2.2.2.1, hres]⟩

/-- Witness for C10: sara's report (resolver unset) and a variant pointing at
the nonexistent person 99 both yield view rows with resolver = None. -/
theorem resolver_left_join_spec_witness :
    (((viewRow sampleDB 100 1 sampleReport1).get (by decide)).resolver =
      sampleReport1.resolver_id.bind (findPerson sampleDB)) ∧
    (∃ v, viewRow sampleDB 100 1 { sampleReport1 with resolver_id := some 99 } = some v ∧
      v.resolver = none) :=
  ⟨(resolver_left_join_spec sampleDB 100 1 sampleReport1).1 _ rfl,
   (resolver_left_join_spec sampleDB 100 1
      { sampleReport1 with resolver_id := some 99 }).2 (by decide) rfl⟩

/-- C6: `read_view` returns exactly one view when a report with the id exists
— with no role hypothesis at all on the viewer — and NotFound when no report
with the id exists. -/
theorem read_view_spec (db : DB) (now : Int) (rid pid : Nat) :
    ((∃ r ∈ db.comment_report, r.id = rid ∧ reportJoinsOk db r = true) →
      (db.comment_report.map (fun x => x.id)).Nodup →
      ∃ v, CommentReportView.read db now rid pid = Except.ok v) ∧
    ((∀ r ∈ db.comment_report, r.id ≠ rid) →
      CommentReportView.read db now rid pid = Except.error DbError.NotFound) := by
  constructor
  · intro hex hn
    obtain ⟨r, hr, hid, hjoins⟩ := hex
    have hfind : db.comment_report.find? (fun x => x.id == rid) = some r := by
      have hf := find?_id_of_nodup db.comment_report r hn hr
      rwa [hid] at hf
    obtain ⟨v, hv⟩ := viewRow_isSome db now pid r hjoins
    refine ⟨v, ?_⟩
    unfold CommentReportView.read
    rw [hfind]
    simp [hv]
  · intro hnone
    have hfind : db.comment_report.find? (fun x => x.id == rid) = none := by
      rw [List.find?_eq_none]
      intro x hx
      simpa using hnone x hx
    unfold CommentReportView.read
    rw [hfind]
    simp

/-- Witness for C6: in the sample store report 2 reads back as a view for an
arbitrary viewer, and the absent id 9 is NotFound. -/
theorem read_view_spec_witness :
    (∃ v, CommentReportView.read sampleDB 100 2 5 = Except.ok v) ∧
    CommentReportView.read sampleDB 100 9 5 = Except.error DbError.NotFound :=
  ⟨(read_view_spec sampleDB 100 2 5).1 (by decide) (by decide),
   (read_view_spec sampleDB 100 9 5).2 (by decide)⟩

lemma mem_candidate_rows (db : DB) (now : Int) (options : CommentReportQuery)
    (user : LocalUserView) (v : CommentReportView)
    (hv : v ∈ candidate_rows db now options user) :
    ∃ r ∈ db.comment_report, viewRow db now user.person.id r = some v := by
  unfold candidate_rows at hv
  have hv2 : v ∈ db.comment_report.filterMap (viewRow db now user.person.id) := by
    cases hco : options.community_id <;> cases hcm : options.comment_id <;>
      cases hadm : user.local_user.admin <;>
      simp only [hco, hcm, hadm, Bool.not_false, Bool.not_true, if_true, if_false,
        Bool.false_eq_true, Bool.true_eq_false] at hv <;>
      first
      | exact hv
      | exact (List.mem_filter.mp hv).1
      | exact (List.mem_filter.mp (List.mem_filter.mp hv).1).1
      | exact (List.mem_filter.mp (List.mem_filter.mp (List.mem_filter.mp hv).1).1).1
  exact List.mem_filterMap.mp hv2

lemma mem_ordered_rows (db : DB) (now : Int) (options : CommentReportQuery)
    (user : LocalUserView) (v : CommentReportView)
    (hv : v ∈ ordered_rows db now options user) :
    v ∈ candidate_rows db now options user := by
  unfold ordered_rows at hv
  cases hu : options.unresolved_only <;>
    simp only [hu, if_true, if_false, Bool.false_eq_true] at hv
  · exact (List.perm_insertionSort publishedGE _).mem_iff.mp hv
  · exact (List.mem_filter.mp ((List.perm_insertionSort publishedLE _).mem_iff.mp hv)).1

/-- C5: point lookup and list mode are built on the one shared `viewRow`
join/select shape, so every report appearing in a list result, read back by
its id as the same viewer, yields the identical view row. -/
theorem read_list_consistent (db : DB) (now : Int) (options : CommentReportQuery)
    (user : LocalUserView) (res : List CommentReportView) (v : CommentReportView)
    (hn : (db.comment_report.map (fun x => x.id)).Nodup)
    (h : options.list db now user = Except.ok res) (hv : v ∈ res) :
    CommentReportView.read db now v.comment_report.id user.person.id = Except.ok v := by
  obtain ⟨limit, off, -, hres⟩ := list_ok_res options db now user res h
  have h1 : v ∈ ordered_rows db now options user := by
    rw [hres] at hv
    exact ((List.take_sublist _ _).trans (List.drop_sublist _ _)).subset hv
  obtain ⟨r, hr, hrow⟩ :=
    mem_candidate_rows db now options user v (mem_ordered_rows db now options user v h1)
  have hcr : v.comment_report = r := (viewRow_inv db now user.person.id r v hrow).1
  have hfind : db.comment_report.find? (fun x => x.id == v.comment_report.id) = some r := by
    rw [hcr]
    exact find?_id_of_nodup db.comment_report r hn hr
  unfold CommentReportView.read
  rw [hfind]
  simp [hrow]

/-- Witness for C5: jessica's report appears in timmy's default listing of
the sample store and reads back as the identical view row. -/
theorem read_list_consistent_witness :
    CommentReportView.read sampleDB 100
        ((viewRow sampleDB 100 1 sampleReport2).get (by decide)).comment_report.id 1 =
      Except.ok ((viewRow sampleDB 100 1 sampleReport2).get (by decide)) :=
  read_list_consistent sampleDB 100 defaultQuery timmyView
    ((CommentReportQuery.list defaultQuery sampleDB 100 timmyView).toOption.getD [])
    ((viewRow sampleDB 100 1 sampleReport2).get (by decide)) (by decide) rfl (by decide)

lemma count_nonadmin_key (db : DB) (pid : Nat) (cid : Option Nat) :
    ((report_count_rows db db.comment_report cid).filter
        (fun rp => viewer_is_moderator db pid rp.2.community_id)).length =
      db.comment_report.countP (count_pred db pid false cid) := by
  rw [← List.countP_eq_length_filter]
  cases cid with
  | none =>
    unfold report_count_rows
    simp only [List.countP_filter, List.countP_filterMap]
    apply List.countP_congr
    intro r _
    cases hfc : findComment db r.comment_id with
    | none => simp [count_pred, hfc]
    | some c =>
      cases hfp : findPost db c.post_id with
      | none => simp [count_pred, hfc, hfp]
      | some p =>
        simp [count_pred, hfc, hfp] <;> tauto
  | some k =>
    unfold report_count_rows
    simp only [List.countP_filter, List.countP_filterMap]
    apply List.countP_congr
    intro r _
    cases hfc : findComment db r.comment_id with
    | none => simp [count_pred, hfc]
    | some c =>
      cases hfp : findPost db c.post_id with
      | none => simp [count_pred, hfc, hfp]
      | some p =>
        simp [count_pred, hfc, hfp] <;> tauto

lemma count_admin_key (db : DB) (pid : Nat) (cid : Option Nat) :
    (report_count_rows db db.comment_report cid).length =
      db.comment_report.countP (count_pred db pid true cid) := by
  rw [← congrFun List.countP_true (report_count_rows db db.comment_report cid)]
  cases cid with
  | none =>
    unfold report_count_rows
    simp only [List.countP_filter, List.countP_filterMap]
    apply List.countP_congr
    intro r _
    cases hfc : findComment db r.comment_id with
    | none => simp [count_pred, hfc]
    | some c =>
      cases hfp : findPost db c.post_id with
      | none => simp [count_pred, hfc, hfp]
      | some p =>
        simp [count_pred, hfc, hfp] <;> tauto
  | some k =>
    unfold report_count_rows
    simp only [List.countP_filter, List.countP_filterMap]
    apply List.countP_congr
    intro r _
    cases hfc : findComment db r.comment_id with
    | none => simp [count_pred, hfc]
    | some c =>
      cases hfp : findPost db c.post_id with
      | none => simp [count_pred, hfc, hfp]
      | some p =>
        simp [count_pred, hfc, hfp] <;> tauto

lemma get_report_count_eq_countP (db : DB) (pid : Nat) (admin : Bool) (cid : Option Nat) :
    CommentReportView.get_report_count db pid admin cid =
      (db.comment_report.countP (count_pred db pid admin cid) : Int) := by
  unfold CommentReportView.get_report_count
  cases admin with
  | false =>
    simp only [Bool.not_false, if_true]
    exact_mod_cast count_nonadmin_key db pid cid
  | true =>
    simp only [Bool.not_true, Bool.false_eq_true, if_false]
    exact_mod_cast count_admin_key db pid cid

lemma mem_candidate_rows_mod (db : DB) (now : Int) (options : CommentReportQuery)
    (user : LocalUserView) (v : CommentReportView)
    (hadm : user.local_user.admin = false)
    (hv : v ∈ candidate_rows db now options user) :
    viewer_is_moderator db user.person.id v.post.community_id = true := by
  unfold candidate_rows at hv
  simp only [hadm, Bool.not_false, if_true] at hv
  exact (List.mem_filter.mp hv).2

lemma candidate_rows_admin (db : DB) (now : Int) (options : CommentReportQuery)
    (user : LocalUserView) (hadm : user.local_user.admin = true) :
    candidate_rows db now options user = unrestricted_rows db now options user := by
  unfold candidate_rows unrestricted_rows
  simp only [hadm, Bool.not_true, Bool.false_eq_true, if_false]

/-- C1: a non-admin viewer receives from `list_views` only reports whose
community they moderate, and `count_unresolved` counts for them exactly the
unresolved matching reports they moderate; an admin viewer's list equals the
unrestricted pipeline (same filters, ordering and pagination, no
moderator-relation restriction) and their count has no moderator-relation
conjunct. -/
theorem role_visibility_spec (db : DB) (now : Int) (options : CommentReportQuery)
    (user : LocalUserView) (pid : Nat) (cid : Option Nat) :
    (user.local_user.admin = false →
      ∀ res, options.list db now user = Except.ok res →
        ∀ v ∈ res, viewer_is_moderator db user.person.id v.post.community_id = true) ∧
    (user.local_user.admin = true →
      options.list db now user = options.list_all db now user) ∧
    (CommentReportView.get_report_count db pid false cid =
      (db.comment_report.countP (fun r =>
        (!r.resolved) &&
        (match (findComment db r.comment_id).bind (fun c => findPost db c.post_id) with
         | none => false
         | some p =>
           (match cid with
            | some k => p.community_id == k
            | none => true) && viewer_is_moderator db pid p.community_id)) : Int)) ∧
    (CommentReportView.get_report_count db pid true cid =
      (db.comment_report.countP (fun r =>
        (!r.resolved) &&
        (match (findComment db r.comment_id).bind (fun c => findPost db c.post_id) with
         | none => false
         | some p =>
           match cid with
           | some k => p.community_id == k
           | none => true)) : Int)) := by
  refine ⟨?_, ?_, ?_, ?_⟩
  · intro hadm res h v hv
    obtain ⟨limit, off, -, hres⟩ := list_ok_res options db now user res h
    have h1 : v ∈ ordered_rows db now options user := by
      rw [hres] at hv
      exact ((List.take_sublist _ _).trans (List.drop_sublist _ _)).subset hv
    exact mem_candidate_rows_mod db now options user v hadm
      (mem_ordered_rows db now options user v h1)
  · intro hadm
    unfold CommentReportQuery.list CommentReportQuery.list_all ordered_rows
    rw [candidate_rows_admin db now options user hadm]
  · rw [get_report_count_eq_countP db pid false cid]
    have key : db.comment_report.countP (count_pred db pid false cid) =
        db.comment_report.countP (fun r =>
          (!r.resolved) &&
          (match (findComment db r.comment_id).bind (fun c => findPost db c.post_id) with
           | none => false
           | some p =>
             (match cid with
              | some k => p.community_id == k
              | none => true) && viewer_is_moderator db pid p.community_id)) := by
      apply List.countP_congr
      intro r _
      cases hf : (findComment db r.comment_id).bind (fun c => findPost db c.post_id) <;>
        simp [count_pred, hf]
    exact_mod_cast key
  · rw [get_report_count_eq_countP db pid true cid]
    have key : db.comment_report.countP (count_pred db pid true cid) =
        db.comment_report.countP (fun r =>
          (!r.resolved) &&
          (match (findComment db r.comment_id).bind (fun c => findPost db c.post_id) with
           | none => false
           | some p =>
             match cid with
             | some k => p.community_id == k
             | none => true)) := by
      apply List.countP_congr
      intro r _
      cases hf : (findComment db r.comment_id).bind (fun c => findPost db c.post_id) <;>
        simp [count_pred, hf]
    exact_mod_cast key

/-- Witness for C1: in the sample store the non-admin moderator timmy only
sees moderated reports, an admin's listing equals the unrestricted one, and
the two count characterizations evaluate on the sample store. -/
theorem role_visibility_spec_witness :
    viewer_is_moderator sampleDB 1
        ((viewRow sampleDB 100 1 sampleReport2).get (by decide)).post.community_id = true ∧
    CommentReportQuery.list defaultQuery sampleDB 100 adminView =
      CommentReportQuery.list_all defaultQuery sampleDB 100 adminView ∧
    (CommentReportView.get_report_count sampleDB 1 false none =
      (sampleDB.comment_report.countP (fun r =>
        (!r.resolved) &&
        (match (findComment sampleDB r.comment_id).bind
            (fun c => findPost sampleDB c.post_id) with
         | none => false
         | some p => viewer_is_moderator sampleDB 1 p.community_id)) : Int)) :=
  ⟨(role_visibility_spec sampleDB 100 defaultQuery timmyView 1 none).1 rfl
      ((CommentReportQuery.list defaultQuery sampleDB 100 timmyView).toOption.getD []) rfl
      ((viewRow sampleDB 100 1 sampleReport2).get (by decide)) (by decide),
   (role_visibility_spec sampleDB 100 defaultQuery adminView 1 none).2.1 rfl,
   (role_visibility_spec sampleDB 100 defaultQuery timmyView 1 none).2.2.1⟩

/-- C8: `count_unresolved` counts exactly the reports with resolved = false
that pass the narrow report → comment → post join, match the optional
community filter and are visible to the viewer (admin or moderated), and it
returns a non-negative integer with zero a valid non-error result. -/
theorem count_unresolved_spec (db : DB) (pid : Nat) (admin : Bool) (cid : Option Nat) :
    CommentReportView.get_report_count db pid admin cid =
      (db.comment_report.countP (count_pred db pid admin cid) : Int) ∧
    0 ≤ CommentReportView.get_report_count db pid admin cid ∧
    (db.comment_report = [] → CommentReportView.get_report_count db pid admin cid = 0) := by
  refine ⟨get_report_count_eq_countP db pid admin cid, ?_, ?_⟩
  · rw [get_report_count_eq_countP db pid admin cid]
    exact Int.natCast_nonneg _
  · intro h
    rw [get_report_count_eq_countP db pid admin cid, h]
    simp

/-- Witness for C8 on the empty store: the count is the countP value, is
non-negative, and is zero. -/
theorem count_unresolved_spec_witness :
    (CommentReportView.get_report_count emptyDB 1 false none =
      (emptyDB.comment_report.countP (count_pred emptyDB 1 false none) : Int)) ∧
    0 ≤ CommentReportView.get_report_count emptyDB 1 false none ∧
    CommentReportView.get_report_count emptyDB 1 false none = 0 :=
  ⟨(count_unresolved_spec emptyDB 1 false none).1,
   (count_unresolved_spec emptyDB 1 false none).2.1,
   (count_unresolved_spec emptyDB 1 false none).2.2 rfl⟩

end Lemmy
